import Mathlib

set_option linter.unusedVariables false

namespace ShellMCP

/- Shallow embedding of the shell-mcp-server core (src/index.js).
   JavaScript strings are modelled as Lean strings (one Char per UTF-16
   unit of the small ASCII strings the claims exercise), JS objects used
   as string maps are modelled as association lists, and the
   callback-driven subprocess lifecycle is modelled as a step function
   over an explicit execution state driven by a list of externally
   supplied events. -/

/-- Model of the JavaScript split on the one-or-more-whitespace regexp
(str.split on a whitespace-run pattern): the pieces between maximal
whitespace runs, with an empty piece produced at a leading or trailing
run, and a single empty piece for the empty string. -/
def wsSplitGo (inWS : Bool) (acc : List Char) : List Char → List String
  | [] => [String.mk acc.reverse]
  | c :: cs =>
    if c.isWhitespace then
      if inWS then wsSplitGo true acc cs
      else String.mk acc.reverse :: wsSplitGo true [] cs
    else wsSplitGo false (c :: acc) cs

/-- JavaScript str.split on a whitespace-run regexp. -/
def jsSplitWS (s : String) : List String :=
  wsSplitGo false [] s.data

/-- Model of JavaScript String.prototype.trim. -/
def jsTrim (s : String) : String :=
  String.mk (((s.data.dropWhile Char.isWhitespace).reverse.dropWhile Char.isWhitespace).reverse)

/-- Model of JavaScript Array.prototype.join with a separator. -/
def joinWith (sep : String) : List String → String
  | [] => ""
  | [x] => x
  | x :: y :: rest => x ++ sep ++ joinWith sep (y :: rest)

/-- The last n characters of a string (JS str.slice with a negative
argument, for n positive). -/
def strTakeRight (s : String) (n : Nat) : String :=
  String.mk (s.data.drop (s.data.length - n))

/-- JavaScript str.slice (-n) : for n = 0 this is str.slice 0, i.e. the
whole string (negative zero is zero in JS); for n positive, the last
min (n, length) characters. -/
def jsSliceNegStr (s : String) (n : Nat) : String :=
  if n = 0 then s else strTakeRight s n

/-- JavaScript arr.slice (-n) on arrays: for n = 0 the whole array,
otherwise the last min (n, length) elements. -/
def jsSliceNeg {α : Type} (l : List α) (n : Nat) : List α :=
  if n = 0 then l else l.drop (l.length - n)

/-- Model of JavaScript String.prototype.startsWith. -/
def strStartsWith (s pre : String) : Bool :=
  pre.data.isPrefixOf s.data

/-- Lookup in an association list modelling a plain JS object used as a
string-to-string map (first match; keys are kept unique by setAlias). -/
def lookupStr : List (String × String) → String → Option String
  | [], _ => none
  | (k, v) :: rest, key => if k = key then some v else lookupStr rest key

/-- JS object property assignment obj[k] = v on a string map. -/
def setAlias : List (String × String) → String → String → List (String × String)
  | [], k, v => [(k, v)]
  | (k', v') :: rest, k, v =>
    if k' = k then (k, v) :: rest else (k', v') :: setAlias rest k v

/-- JS delete obj[k] on a string map. -/
def removeAliasEntry : List (String × String) → String → List (String × String)
  | [], _ => []
  | (k', v') :: rest, k =>
    if k' = k then rest else (k', v') :: removeAliasEntry rest k

/-- JS truthiness of an optional string property: undefined and the
empty string are falsy, every other string is truthy. -/
def truthyOptStr : Option String → Bool
  | none => false
  | some s => !(s = "")

/- Configuration constants from the config object in src/index.js. -/

def defaultTimeoutC : Nat := 30000

def maxTimeoutC : Nat := 120000

def maxOutputC : Nat := 1048576

def allowedDirectories : List String := ["/root/.openclaw/workspace"]

def defaultWorkspace : String := "/root/.openclaw/workspace"

/-- Property names the alias object literal inherits from
Object.prototype: reading aliases[k] for these k with no own entry
yields a truthy non-string (a function, or the prototype object for the
dunder-proto accessor), so the source's subsequent .split call throws a
TypeError. -/
def protoKeys : List String :=
  ["constructor", "hasOwnProperty", "isPrototypeOf", "propertyIsEnumerable",
   "toLocaleString", "toString", "valueOf", "__defineGetter__",
   "__defineSetter__", "__lookupGetter__", "__lookupSetter__", "__proto__"]

/-- JS truthiness of the property read aliases[key] on the alias object
literal: an own entry shadows the prototype and is truthy exactly when
non-empty; a missing own entry falls back to Object.prototype, whose
members are truthy (non-string) values. -/
def aliasReadTruthy (aliases : List (String × String)) (key : String) : Bool :=
  match lookupStr aliases key with
  | some v => !(v = "")
  | none => protoKeys.contains key

/-- resolveCommand from src/index.js: trim the command, split it on
whitespace, and read aliases[firstToken]. A truthy own entry is
substituted: its whitespace-split template replaces the token, the
remaining tokens are appended, space-joined. A falsy read (absent key,
or an own entry with the empty template) returns the command unchanged.
A missing own key that names an inherited Object.prototype member reads
a truthy non-string, so the .split call on it throws a TypeError,
modelled as none. -/
def resolveCommand (aliases : List (String × String)) (cmd : String) : Option String :=
  let trimmed := jsTrim cmd
  let parts := jsSplitWS trimmed
  let potentialAlias := parts.headD ""
  match lookupStr aliases potentialAlias with
  | some tmpl =>
    if tmpl = "" then some cmd
    else some (joinWith " " (jsSplitWS tmpl ++ parts.tail))
  | none =>
    if protoKeys.contains potentialAlias then none
    else some cmd

/-- Split a character list on a separator character (pieces may be
empty), used by the path normalization model. -/
def splitOnChar (sep : Char) (acc : List Char) : List Char → List String
  | [] => [String.mk acc.reverse]
  | c :: cs =>
    if c = sep then String.mk acc.reverse :: splitOnChar sep [] cs
    else splitOnChar sep (c :: acc) cs

/-- Model of Node's POSIX path.resolve with a single argument (an
external library routine): make the path absolute against the process
working directory, then normalize empty, dot and dot-dot segments. -/
def pathResolve (processCwd p : String) : String :=
  let full := if strStartsWith p "/" then p else processCwd ++ "/" ++ p
  let parts := (splitOnChar '/' [] full.data).filter (fun x => !(x = "" || x = "."))
  let stack := parts.foldl
    (fun st part => if part = ".." then st.dropLast else st ++ [part])
    ([] : List String)
  "/" ++ joinWith "/" stack

/-- One record of the command history (the object pushed onto
commandHistory in the close handler of executeCommand). -/
structure HistoryEntry where
  command : String
  cwd : String
  success : Bool
  exitCode : Option Int
  duration : Nat
  timestamp : String
deriving DecidableEq

/-- getHistory from src/index.js: commandHistory.slice (-limit) followed
by reverse. -/
def getHistory (hist : List HistoryEntry) (limit : Nat) : List HistoryEntry :=
  (jsSliceNeg hist limit).reverse

/- Execution engine (executeCommand in src/index.js). -/

inductive StreamKind where
  | out
  | err
deriving DecidableEq

/-- Asynchronous events delivered to one execution before its terminal
event: a data chunk on stdout or stderr, or the firing of the armed
timeout timer. -/
inductive ExecEvent where
  | chunk (k : StreamKind) (data : String)
  | timerFire
deriving DecidableEq

/-- The terminal event of one execution: the subprocess close event
(with its exit code, which is null when the process was killed by a
signal, plus the externally observed wall-clock duration and timestamp),
or a spawn error. -/
inductive TermEvent where
  | close (code : Option Int) (duration : Nat) (timestamp : String)
  | spawnError (msg : String)
deriving DecidableEq

/-- The mutable state of one in-flight execution (the local variables of
executeCommand: the two output buffers and the killed/timedOut flags).
The field kills counts the invocations of child.kill, the externally
observable kill signals sent to the subprocess. -/
structure ExecSt where
  stdout : String
  stderr : String
  killed : Bool
  timedOut : Bool
  kills : Nat
deriving DecidableEq

def execInit : ExecSt :=
  { stdout := "", stderr := "", killed := false, timedOut := false, kills := 0 }

/-- One step of the execution state machine: the outputHandler for data
chunks (kill once when the combined buffered size already exceeds
maxOutput and drop the chunk, otherwise append to the matching buffer)
and doTimeout for the timer (kill once, set timedOut, append the
diagnostic marker to stderr). -/
def stepEvent (maxOutput timeout : Nat) (s : ExecSt) (e : ExecEvent) : ExecSt :=
  match e with
  | .chunk k data =>
    if s.stdout.length + s.stderr.length > maxOutput then
      if !s.killed && !s.timedOut then
        { s with killed := true, kills := s.kills + 1 }
      else s
    else
      match k with
      | .out => { s with stdout := s.stdout ++ data }
      | .err => { s with stderr := s.stderr ++ data }
  | .timerFire =>
    if !s.killed && !s.timedOut then
      { s with timedOut := true, killed := true, kills := s.kills + 1,
               stderr := s.stderr ++ "\n[Command timed out after "
                 ++ toString (timeout / 1000) ++ "s]" }
    else s

def runFrom (maxOutput timeout : Nat) (s : ExecSt) (evts : List ExecEvent) : ExecSt :=
  evts.foldl (stepEvent maxOutput timeout) s

def runEvents (maxOutput timeout : Nat) (evts : List ExecEvent) : ExecSt :=
  runFrom maxOutput timeout execInit evts

/-- The result object built in the close handler of executeCommand. -/
structure CloseResult where
  success : Bool
  exitCode : Option Int
  stdout : String
  stderr : String
  duration : Nat
  cwd : String
  timedOut : Bool
  originalCommand : String
  resolvedCommand : String
deriving DecidableEq

/-- The result object built in the error handler of executeCommand: it
carries no exit code, no buffers, no duration and no timedOut flag. -/
structure ErrorResult where
  success : Bool
  error : String
  cwd : String
  originalCommand : String
  resolvedCommand : String
deriving DecidableEq

/-- What the promise returned by executeCommand resolves with: the close
handler's result or the error handler's result (the promise is always
resolved, never rejected). -/
inductive ExecOutcome where
  | completed (r : CloseResult)
  | spawnErrored (r : ErrorResult)
deriving DecidableEq

/-- The argument object of executeCommand; none models an absent (JS
undefined) property, so the destructuring defaults of src/index.js
apply. The env map is passed through to the external spawn and does not
influence any modelled observable. -/
structure ExecArgs where
  command : String
  cwd : Option String := none
  timeout : Option Nat := none
  maxOutput : Option Nat := none
deriving DecidableEq

/-- Node path.resolve applied to the requested cwd (after its default). -/
def resolveCwdOf (processCwd : String) (args : ExecArgs) : String :=
  pathResolve processCwd (args.cwd.getD defaultWorkspace)

/-- The allow-list check of executeCommand. -/
def isAllowedCwd (c : String) : Bool :=
  allowedDirectories.any (fun dir => strStartsWith c dir)

/-- The working directory actually used: the resolved requested cwd if
it passes the allow-list check, the default workspace root otherwise. -/
def usedCwd (processCwd : String) (args : ExecArgs) : String :=
  let r := resolveCwdOf processCwd args
  if isAllowedCwd r then r else defaultWorkspace

/-- The executor body of executeCommand in src/index.js from the spawn
on, as a function of the alias table, the current history, the process
working directory, the request, the asynchronous events observed before
termination, and the terminal event. It returns what the promise
resolves with together with the history after the call (the close
handler appends one entry unless the execution timed out; the error
handler appends nothing). It is reached only when resolveCommand
returned normally; executeCommandPromise below short-circuits the
throwing case before any subprocess exists, so the getD fallback for
the resolved command is never exercised on the faithful composition and
merely totalizes this function. -/
def executeCommand (aliases : List (String × String)) (history : List HistoryEntry)
    (processCwd : String) (args : ExecArgs)
    (evts : List ExecEvent) (term : TermEvent) :
    ExecOutcome × List HistoryEntry :=
  let timeout := args.timeout.getD defaultTimeoutC
  let maxOutput := args.maxOutput.getD maxOutputC
  let resolvedCmd := (resolveCommand aliases args.command).getD args.command
  let resolvedCwd := usedCwd processCwd args
  match term with
  | .spawnError msg =>
    (.spawnErrored { success := false, error := msg, cwd := resolvedCwd,
                     originalCommand := args.command, resolvedCommand := resolvedCmd },
     history)
  | .close code duration timestamp =>
    let s := runEvents maxOutput timeout evts
    let result : CloseResult :=
      { success := decide (code = some 0) || s.timedOut,
        exitCode := code,
        stdout := jsSliceNegStr s.stdout maxOutput,
        stderr := if s.timedOut then s.stderr else jsSliceNegStr s.stderr maxOutput,
        duration := duration,
        cwd := resolvedCwd,
        timedOut := s.timedOut,
        originalCommand := args.command,
        resolvedCommand := resolvedCmd }
    let newHist :=
      if s.timedOut then history
      else history ++ [{ command := resolvedCmd, cwd := resolvedCwd,
                         success := decide (code = some 0), exitCode := code,
                         duration := duration, timestamp := timestamp }]
    (.completed result, newHist)

/-- The settled state of the promise returned by executeCommand: the
executor only ever calls resolve, but a synchronous throw inside the
executor (resolveCommand hitting an inherited Object.prototype member)
rejects the promise with the thrown TypeError. -/
inductive ExecPromise where
  | resolved (out : ExecOutcome)
  | rejected
deriving DecidableEq

/-- executeCommand from src/index.js as observed by its caller: the
executor runs synchronously up to the resolveCommand call at line 92;
if that call throws, the promise rejects before any subprocess is
spawned and the history is untouched; otherwise the subprocess
lifecycle above applies. -/
def executeCommandPromise (aliases : List (String × String))
    (history : List HistoryEntry) (processCwd : String) (args : ExecArgs)
    (evts : List ExecEvent) (term : TermEvent) :
    ExecPromise × List HistoryEntry :=
  match resolveCommand aliases args.command with
  | none => (.rejected, history)
  | some _ =>
    let e := executeCommand aliases history processCwd args evts term
    (.resolved e.1, e.2)

/- Dispatcher (handleMessage in src/index.js). -/

/-- JSON scalar values, enough to model request correlation ids. -/
inductive Json where
  | null
  | bool (b : Bool)
  | num (n : Int)
  | str (s : String)
deriving DecidableEq

/-- The arguments object of a tools/call request; none models an absent
property. -/
structure ToolArgs where
  command : Option String := none
  cwd : Option String := none
  timeout : Option Nat := none
  maxOutput : Option Nat := none
  name : Option String := none
  limit : Option Nat := none
deriving DecidableEq

/-- The params object of a request. -/
structure Params where
  name : Option String := none
  arguments : Option ToolArgs := none
deriving DecidableEq

/-- A parsed incoming message; none models an absent property. -/
structure Msg where
  id : Option Json := none
  method : Option String := none
  params : Option Params := none
deriving DecidableEq

/-- The payload of an outgoing response, structured instead of
JSON-serialized (serialization is external). -/
inductive RespBody where
  | initResult
  | execResult (r : ExecOutcome)
  | historyResult (l : List HistoryEntry)
  | clearedResult
  | aliasesResult (a : List (String × String))
  | addAliasResult (name : String)
  | removeAliasResult (name : String)
  | errorResp (code : Int) (message : String)
deriving DecidableEq

/-- An outgoing response: its id property (none models the undefined id
of a request that had none; some Json.null is an explicit null) and its
payload. -/
structure Response where
  id : Option Json
  body : RespBody
deriving DecidableEq

/-- The mutable server state: the alias table and the command history. -/
structure ServerSt where
  aliases : List (String × String)
  history : List HistoryEntry
deriving DecidableEq

/-- The external inputs consumed by an execute call: the process working
directory and the subprocess events of the spawned child. -/
structure ExecOracle where
  processCwd : String
  evts : List ExecEvent
  term : TermEvent
deriving DecidableEq

/-- The string interpolation of an optional string in a JS template
literal (undefined prints as the word undefined). -/
def showOptStr : Option String → String
  | none => "undefined"
  | some s => s

/-- handleMessage from src/index.js: dispatch on method, and for
tools/call on params.name, producing the emitted responses and the new
server state. Every send in the source uses the destructured id of the
incoming message. An execute call with an absent command property throws
inside the promise executor while trimming undefined, rejecting the
promise, so the catch branch emits the code -32000 response; a promise
rejected by a resolveCommand throw is handled by the same catch (the
TypeError has no error property, so the message falls back to Command
failed). -/
def handleMessage (oracle : ExecOracle) (st : ServerSt) (msg : Msg) :
    List Response × ServerSt :=
  match msg.method with
  | some "initialize" => ([{ id := msg.id, body := .initResult }], st)
  | some "notifications/initialized" => ([], st)
  | some "tools/call" =>
    let toolName := msg.params.bind (fun p => p.name)
    let toolArgs := (msg.params.bind (fun p => p.arguments)).getD {}
    match toolName with
    | some "execute" =>
      match toolArgs.command with
      | none => ([{ id := msg.id, body := .errorResp (-32000) "Command failed" }], st)
      | some c =>
        let ex := executeCommandPromise st.aliases st.history oracle.processCwd
          { command := c, cwd := toolArgs.cwd, timeout := toolArgs.timeout,
            maxOutput := toolArgs.maxOutput }
          oracle.evts oracle.term
        match ex.1 with
        | .resolved out =>
          ([{ id := msg.id, body := .execResult out }], { st with history := ex.2 })
        | .rejected =>
          ([{ id := msg.id, body := .errorResp (-32000) "Command failed" }],
           { st with history := ex.2 })
    | some "history" =>
      ([{ id := msg.id, body := .historyResult (getHistory st.history (toolArgs.limit.getD 50)) }],
       st)
    | some "clearHistory" =>
      ([{ id := msg.id, body := .clearedResult }], { st with history := [] })
    | some "aliases" =>
      ([{ id := msg.id, body := .aliasesResult st.aliases }], st)
    | some "addAlias" =>
      if truthyOptStr toolArgs.name && truthyOptStr toolArgs.command then
        ([{ id := msg.id, body := .addAliasResult (toolArgs.name.getD "") }],
         { st with aliases := setAlias st.aliases (toolArgs.name.getD "") (toolArgs.command.getD "") })
      else
        ([{ id := msg.id, body := .errorResp (-32602) "Missing required fields: name, command" }],
         st)
    | some "removeAlias" =>
      if truthyOptStr toolArgs.name && aliasReadTruthy st.aliases (toolArgs.name.getD "") then
        ([{ id := msg.id, body := .removeAliasResult (toolArgs.name.getD "") }],
         { st with aliases := removeAliasEntry st.aliases (toolArgs.name.getD "") })
      else
        ([{ id := msg.id, body := .errorResp (-32602) ("Alias not found: " ++ showOptStr toolArgs.name) }],
         st)
    | _ =>
      ([{ id := msg.id, body := .errorResp (-32601) ("Unknown tool: " ++ showOptStr toolName) }],
       st)
  | _ => ([{ id := msg.id, body := .errorResp (-32600) "Unknown method" }], st)

/- Message framer (readStdin in src/index.js). -/

/-- Decimal digits to a natural number (parseInt base 10 on an
all-digit string). -/
def digitsToNat (l : List Char) : Nat :=
  l.foldl (fun n c => 10 * n + (c.toNat - 48)) 0

/-- Model of the case-insensitive header regexp matching a line of the
shape Content-Length, a colon, optional whitespace, and digits up to the
end of the line; returns the parsed length on a match. -/
def headerContentLength (line : String) : Option Nat :=
  let pre := "content-length:".data
  if pre.isPrefixOf (line.data.map Char.toLower) then
    let digits := (line.data.drop pre.length).dropWhile Char.isWhitespace
    if digits ≠ [] ∧ digits.all Char.isDigit then some (digitsToNat digits)
    else none
  else none

/-- The framer state of readStdin: the body accumulation buffer, the
announced content length, and whether a body is being read. -/
structure FramerSt where
  buffer : String
  contentLength : Nat
  readingBody : Bool
deriving DecidableEq

def framerInit : FramerSt := { buffer := "", contentLength := 0, readingBody := false }

/-- The line handler of readStdin. In header mode a Content-Length line
updates the expected length and a blank line with a positive pending
length enters body mode. In body mode the line and its newline are
appended; once the buffer reaches the expected length the buffer is
parsed (parseMsg models the external JSON.parse, none meaning a thrown
parse error) and the framer resets; a parse failure emits the parse
error response with an explicit null id. -/
def processLine (parseMsg : String → Option Msg) (oracle : ExecOracle)
    (sst : ServerSt) (fs : FramerSt) (line : String) :
    FramerSt × ServerSt × List Response :=
  if fs.readingBody = false then
    match headerContentLength line with
    | some n => ({ fs with contentLength := n }, sst, [])
    | none =>
      if jsTrim line = "" then
        if fs.contentLength > 0 then
          ({ fs with readingBody := true, buffer := "" }, sst, [])
        else (fs, sst, [])
      else (fs, sst, [])
  else
    let buf := fs.buffer ++ line ++ "\n"
    if fs.contentLength ≤ buf.length then
      match parseMsg buf with
      | some msg =>
        let hm := handleMessage oracle sst msg
        (framerInit, hm.2, hm.1)
      | none =>
        (framerInit, sst, [{ id := some Json.null, body := .errorResp (-32700) "Parse error" }])
    else ({ fs with buffer := buf }, sst, [])

/-- Run the framer over a list of input lines, collecting all emitted
responses in order. -/
def runLines (parseMsg : String → Option Msg) (oracle : ExecOracle) :
    List String → FramerSt → ServerSt → FramerSt × ServerSt × List Response
  | [], fs, sst => (fs, sst, [])
  | line :: rest, fs, sst =>
    let step := processLine parseMsg oracle sst fs line
    let tail := runLines parseMsg oracle rest step.1 step.2.1
    (tail.1, tail.2.1, step.2.2 ++ tail.2.2)

/- Helper lemmas. -/

theorem strTakeRight_length_le (s : String) (n : Nat) :
    (strTakeRight s n).length ≤ n := by
  show (s.data.drop (s.data.length - n)).length ≤ n
  rw [List.length_drop]
  omega

/-- Claim C1: For every execution whose subprocess reaches process exit
with exit code c, the returned ExecutionResult has success = true if and
only if c is zero or timedOut is true; in particular a timed-out
execution is reported with success = true. -/
theorem exec_success_iff_exit_zero_or_timeout
    (aliases : List (String × String)) (history : List HistoryEntry)
    (processCwd : String) (args : ExecArgs) (evts : List ExecEvent)
    (code : Option Int) (dur : Nat) (ts : String) :
    ∃ r, (executeCommand aliases history processCwd args evts (.close code dur ts)).1
        = .completed r
      ∧ (r.success = true ↔ (code = some 0 ∨ r.timedOut = true)) := by
  refine ⟨_, rfl, ?_⟩
  simp [executeCommand]

/-- Claim C2: For every call to execute whose subprocess reaches process
exit, exactly one HistoryEntry (resolved command, cwd actually used,
success = exit code equals zero, exit code, duration, timestamp) is
appended to the history exactly when timedOut is false; when timedOut is
true the history is left unchanged. -/
theorem exec_history_append_iff_not_timeout
    (aliases : List (String × String)) (history : List HistoryEntry)
    (processCwd : String) (args : ExecArgs) (evts : List ExecEvent)
    (code : Option Int) (dur : Nat) (ts : String) :
    ∃ r, executeCommand aliases history processCwd args evts (.close code dur ts)
        = (.completed r,
           if r.timedOut then history
           else history ++ [{ command := r.resolvedCommand, cwd := r.cwd,
                              success := decide (code = some 0), exitCode := code,
                              duration := dur, timestamp := ts }]) :=
  ⟨_, rfl⟩

/-- Claim C9 counterexample: the non-empty command toString, whose
first token is an inherited Object.prototype member and not an alias,
makes resolveCommand throw inside the promise executor, so the promise
returned by executeCommand rejects instead of resolving: the claim that
execute never rejects is false on the code. -/
theorem exec_promise_reject_cex :
    (({ command := "toString" } : ExecArgs).command ≠ "")
    ∧ (executeCommandPromise [] [] "/" { command := "toString" } []
        (.close (some 0) 1 "t")).1 = ExecPromise.rejected := by
  decide

/-- Claim C9 amended: for every ExecutionRequest with a non-empty
command whose resolution does not throw (its first whitespace token,
when it misses the alias table, is not an inherited Object.prototype
member), execute always resolves with an ExecutionResult; on spawn
failure it resolves with success = false and the error message, in a
result shape carrying no exit code, and the history is unchanged. When
resolution does throw, the promise rejects before any subprocess is
spawned, also leaving the history unchanged. -/
theorem exec_spawn_error_resolves
    (aliases : List (String × String)) (history : List HistoryEntry)
    (processCwd : String) (args : ExecArgs) (hc : args.command ≠ "")
    (evts : List ExecEvent) (emsg : String) :
    (∀ rc, resolveCommand aliases args.command = some rc →
      executeCommandPromise aliases history processCwd args evts (.spawnError emsg)
        = (.resolved (.spawnErrored { success := false, error := emsg,
                                      cwd := usedCwd processCwd args,
                                      originalCommand := args.command,
                                      resolvedCommand := rc }),
           history))
    ∧ (∀ rc, resolveCommand aliases args.command = some rc →
        ∀ term : TermEvent, ∃ out hist',
          executeCommandPromise aliases history processCwd args evts term
            = (.resolved out, hist'))
    ∧ (resolveCommand aliases args.command = none →
        ∀ term : TermEvent,
          executeCommandPromise aliases history processCwd args evts term
            = (.rejected, history)) := by
  refine ⟨?_, ?_, ?_⟩
  · intro rc hres
    simp [executeCommandPromise, hres, executeCommand]
  · intro rc hres term
    refine ⟨(executeCommand aliases history processCwd args evts term).1,
            (executeCommand aliases history processCwd args evts term).2, ?_⟩
    simp [executeCommandPromise, hres]
  · intro hres term
    simp [executeCommandPromise, hres]

theorem exec_spawn_error_resolves_witness :
    (({ command := "ls" } : ExecArgs).command ≠ "")
    ∧ resolveCommand [] "ls" = some "ls"
    ∧ executeCommandPromise [] [] "/" { command := "ls" } [] (.spawnError "spawn bash ENOENT")
        = (.resolved (.spawnErrored { success := false, error := "spawn bash ENOENT",
                                      cwd := usedCwd "/" { command := "ls" },
                                      originalCommand := "ls",
                                      resolvedCommand := "ls" }),
           []) :=
  ⟨by decide, by decide,
   (exec_spawn_error_resolves [] [] "/" { command := "ls" } (by decide) []
      "spawn bash ENOENT").1 "ls" (by decide)⟩

/-- The cwd field of either result shape. -/
def outcomeCwd : ExecOutcome → String
  | .completed r => r.cwd
  | .spawnErrored r => r.cwd

/-- Claim C5: For every execute request, the requested cwd is normalized
to an absolute path; if that path is not prefixed by any entry of the
allow-list the execution is not rejected: the result (of either shape)
carries the default workspace root as its cwd, never the rejected
path. -/
theorem cwd_fallback_to_default
    (aliases : List (String × String)) (history : List HistoryEntry)
    (processCwd : String) (args : ExecArgs) (evts : List ExecEvent)
    (term : TermEvent)
    (h : isAllowedCwd (resolveCwdOf processCwd args) = false) :
    outcomeCwd (executeCommand aliases history processCwd args evts term).1
        = defaultWorkspace
    ∧ defaultWorkspace ≠ resolveCwdOf processCwd args := by
  constructor
  · cases term <;> simp [executeCommand, outcomeCwd, usedCwd, h]
  · intro heq
    rw [← heq] at h
    have hd : isAllowedCwd defaultWorkspace = true := by decide
    rw [h] at hd
    exact Bool.noConfusion hd

theorem cwd_fallback_to_default_witness :
    (isAllowedCwd (resolveCwdOf "/" { command := "ls", cwd := some "/etc" }) = false)
    ∧ outcomeCwd (executeCommand [] [] "/" { command := "ls", cwd := some "/etc" }
           [] (.close (some 0) 1 "t")).1
        = defaultWorkspace :=
  ⟨by decide,
   (cwd_fallback_to_default [] [] "/" { command := "ls", cwd := some "/etc" }
      [] (.close (some 0) 1 "t") (by decide)).1⟩

/-- Invariant tying the kill counter to the killed and timedOut flags:
no kill signal has been sent while killed is false, at most one is ever
sent, and timedOut implies killed. -/
def killInv (s : ExecSt) : Prop :=
  (s.killed = false → s.kills = 0) ∧ s.kills ≤ 1 ∧ (s.timedOut = true → s.killed = true)

theorem killInv_step (m t : Nat) (s : ExecSt) (e : ExecEvent) (h : killInv s) :
    killInv (stepEvent m t s e) := by
  obtain ⟨h1, h2, h3⟩ := h
  rcases s with ⟨so, se, kd, td, ks⟩
  simp only [killInv] at *
  cases e with
  | chunk k data =>
    cases k <;> cases kd <;> cases td <;>
      simp_all [stepEvent] <;> split <;> simp_all
  | timerFire =>
    cases kd <;> cases td <;> simp_all [stepEvent]

theorem killInv_runFrom (m t : Nat) (s : ExecSt) (evts : List ExecEvent)
    (h : killInv s) : killInv (runFrom m t s evts) := by
  induction evts generalizing s with
  | nil => exact h
  | cons e rest ih => exact ih (stepEvent m t s e) (killInv_step m t s e h)

theorem step_killed_frozen (m t : Nat) (s : ExecSt) (e : ExecEvent)
    (h : s.killed = true) :
    (stepEvent m t s e).killed = true
    ∧ (stepEvent m t s e).kills = s.kills
    ∧ (stepEvent m t s e).timedOut = s.timedOut := by
  rcases s with ⟨so, se, kd, td, ks⟩
  cases h
  cases e with
  | chunk k data => cases k <;> simp [stepEvent] <;> split <;> simp
  | timerFire => simp [stepEvent]

theorem runFrom_killed_frozen (m t : Nat) (s : ExecSt) (evts : List ExecEvent)
    (h : s.killed = true) :
    (runFrom m t s evts).kills = s.kills
    ∧ (runFrom m t s evts).timedOut = s.timedOut
    ∧ (runFrom m t s evts).killed = true := by
  induction evts generalizing s with
  | nil => exact ⟨rfl, rfl, h⟩
  | cons e rest ih =>
    obtain ⟨hk, hc, ht⟩ := step_killed_frozen m t s e h
    obtain ⟨ih1, ih2, ih3⟩ := ih (stepEvent m t s e) hk
    exact ⟨by rw [runFrom] at ih1 ⊢; simp only [List.foldl] ; rw [ih1, hc],
           by rw [runFrom] at ih2 ⊢; simp only [List.foldl] ; rw [ih2, ht],
           by rw [runFrom] at ih3 ⊢; simp only [List.foldl] ; exact ih3⟩

/-- Claim C6: For every execution, the forceful kill signal is sent at
most once; once a kill has happened (by either trigger) any further
events send no kill and never change the timedOut flag, so the overflow
and timeout triggers are mutually exclusive and an overflow-killed
execution (whose state has timedOut = false) is never later marked
timedOut; and the overflow trigger fires exactly when a chunk arrives
while the combined buffer size already exceeds maxOutput, dropping that
chunk. -/
theorem kill_signal_at_most_once :
    (∀ m t evts, (runEvents m t evts).kills ≤ 1)
    ∧ (∀ m t (s : ExecSt) evts, s.killed = true →
        (runFrom m t s evts).kills = s.kills
        ∧ (runFrom m t s evts).timedOut = s.timedOut)
    ∧ (∀ m t (s : ExecSt) (k : StreamKind) (d : String),
        s.stdout.length + s.stderr.length > m →
        (stepEvent m t s (.chunk k d)).stdout = s.stdout
        ∧ (stepEvent m t s (.chunk k d)).stderr = s.stderr
        ∧ (stepEvent m t s (.chunk k d)).timedOut = s.timedOut) := by
  refine ⟨?_, ?_, ?_⟩
  · intro m t evts
    have h := killInv_runFrom m t execInit evts (by simp [killInv, execInit])
    exact h.2.1
  · intro m t s evts h
    obtain ⟨h1, h2, _⟩ := runFrom_killed_frozen m t s evts h
    exact ⟨h1, h2⟩
  · intro m t s k d h
    rcases s with ⟨so, se, kd, td, ks⟩
    simp only [ExecSt.stdout, ExecSt.stderr] at h
    cases k <;> simp [stepEvent, if_pos h] <;> split <;> simp

theorem kill_signal_at_most_once_witness :
    ((⟨"", "", true, false, 1⟩ : ExecSt).killed = true
      ∧ (runFrom 8 100 ⟨"", "", true, false, 1⟩ [ExecEvent.timerFire]).kills = 1
      ∧ (runFrom 8 100 ⟨"", "", true, false, 1⟩ [ExecEvent.timerFire]).timedOut = false)
    ∧ ((⟨"ab", "c", false, false, 0⟩ : ExecSt).stdout.length
          + (⟨"ab", "c", false, false, 0⟩ : ExecSt).stderr.length > 2
      ∧ (stepEvent 2 100 ⟨"ab", "c", false, false, 0⟩ (.chunk .out "zz")).stdout = "ab") := by
  constructor
  · have h := (kill_signal_at_most_once).2.1 8 100 ⟨"", "", true, false, 1⟩
      [ExecEvent.timerFire] rfl
    exact ⟨rfl, h.1, h.2⟩
  · exact ⟨by decide,
      ((kill_signal_at_most_once).2.2 2 100 ⟨"ab", "c", false, false, 0⟩ .out "zz"
        (by decide)).1⟩

/-- Claim C3 counterexample: the claim fails on two reachable inputs.
With the alias table mapping g to the empty template (creatable by the
alias store and the standalone alias manager), the first token g is a
key of the table but the falsy property read skips substitution and
returns the input unchanged, not the spliced template the claim
demands. With the empty alias table, the input starting with the
inherited Object.prototype member toString matches no alias, yet the
code throws a TypeError (modelled as none) instead of returning the
input unchanged. -/
theorem resolveCommand_claim_cex :
    resolveCommand [("g", "")] "g x"
        ≠ some (joinWith " " (jsSplitWS "" ++ ["x"]))
    ∧ resolveCommand [] "toString x" ≠ some "toString x" := by
  decide

/-- Claim C3 amended: resolution splits the input on whitespace. If the
first token is a key of the alias table with a non-empty template, the
result is the template, itself whitespace-split, followed by the
remaining original tokens, space-joined. A key with an empty template
is a falsy property read, so the input is returned unchanged. A first
token matching no alias is returned unchanged unless it names an
inherited Object.prototype member, in which case resolution throws a
TypeError (modelled as none). The output equations perform at most one
first-token substitution, so no other token is rewritten and resolution
is never applied to its own result. -/
theorem resolveCommand_first_token_only
    (aliases : List (String × String)) (cmd : String) :
    (∀ t rest tmpl, jsSplitWS (jsTrim cmd) = t :: rest →
        lookupStr aliases t = some tmpl → tmpl ≠ "" →
        resolveCommand aliases cmd = some (joinWith " " (jsSplitWS tmpl ++ rest)))
    ∧ (lookupStr aliases ((jsSplitWS (jsTrim cmd)).headD "") = some "" →
        resolveCommand aliases cmd = some cmd)
    ∧ (lookupStr aliases ((jsSplitWS (jsTrim cmd)).headD "") = none →
        protoKeys.contains ((jsSplitWS (jsTrim cmd)).headD "") = false →
        resolveCommand aliases cmd = some cmd)
    ∧ (lookupStr aliases ((jsSplitWS (jsTrim cmd)).headD "") = none →
        protoKeys.contains ((jsSplitWS (jsTrim cmd)).headD "") = true →
        resolveCommand aliases cmd = none) := by
  refine ⟨?_, ?_, ?_, ?_⟩
  · intro t rest tmpl hsplit hlook hne
    simp [resolveCommand, hsplit, hlook, hne]
  · intro hempty
    rw [List.headD_eq_head?_getD] at hempty
    simp [resolveCommand, hempty]
  · intro hnone hproto
    rw [List.headD_eq_head?_getD] at hnone hproto
    have h' : (jsSplitWS (jsTrim cmd)).head?.getD "" ∉ protoKeys := by
      simpa using hproto
    simp [resolveCommand, hnone, h']
  · intro hnone hproto
    rw [List.headD_eq_head?_getD] at hnone hproto
    have h' : (jsSplitWS (jsTrim cmd)).head?.getD "" ∈ protoKeys := by
      simpa using hproto
    simp [resolveCommand, hnone, h']

theorem resolveCommand_first_token_only_witness :
    (jsSplitWS (jsTrim "gp --x") = "gp" :: ["--x"]
      ∧ resolveCommand [("gp", "git pull origin main")] "gp --x"
          = some "git pull origin main --x")
    ∧ resolveCommand [] "toString x" = none := by
  constructor
  · refine ⟨by decide, ?_⟩
    have h := (resolveCommand_first_token_only [("gp", "git pull origin main")]
        "gp --x").1 "gp" ["--x"] "git pull origin main" (by decide) (by decide) (by decide)
    exact h.trans (by decide)
  · exact (resolveCommand_first_token_only [] "toString x").2.2.2 (by decide) (by decide)

/-- Claim C7 counterexample: with a one-entry history and limit 0 the
query returns the whole history (a JS slice of negative zero is a slice
from zero), not min (0, 1) = 0 entries as the claim states. -/
theorem getHistory_limit_zero_cex :
    ¬ ((getHistory [⟨"echo hi", "/w", true, some 0, 5, "t"⟩] 0).length
        = min 0 [(⟨"echo hi", "/w", true, some 0, 5, "t"⟩ : HistoryEntry)].length) := by
  decide

/-- Claim C7 amended: for every history of N entries and every limit
k ≥ 1, the history query returns the last min (k, N) entries in
reverse-chronological order (most recently appended first); with limit
0 the code instead returns all N entries reversed. -/
theorem getHistory_recent_reverse (hist : List HistoryEntry) (k : Nat) (hk : 0 < k) :
    getHistory hist k = hist.reverse.take (min k hist.length) := by
  have hk' : ¬(k = 0) := Nat.pos_iff_ne_zero.mp hk
  simp only [getHistory, jsSliceNeg, if_neg hk']
  rw [List.reverse_drop]
  congr 1
  omega

theorem getHistory_recent_reverse_witness :
    0 < 1
    ∧ getHistory [⟨"a", "/w", true, some 0, 1, "s"⟩, ⟨"b", "/w", false, some 1, 2, "u"⟩] 1
        = [⟨"b", "/w", false, some 1, 2, "u"⟩] := by
  refine ⟨by decide, ?_⟩
  have h := getHistory_recent_reverse
    [⟨"a", "/w", true, some 0, 1, "s"⟩, ⟨"b", "/w", false, some 1, 2, "u"⟩] 1 (by decide)
  exact h.trans (by decide)

/-- The stdout field of a close result (empty for the error shape,
which has no buffers). -/
def outcomeStdout : ExecOutcome → String
  | .completed r => r.stdout
  | .spawnErrored _ => ""

/-- Claim C8 counterexample: with maxOutput 0, one buffered chunk of
two characters is returned whole (a JS slice of negative zero is a
slice from zero), so the result's stdout length exceeds
maxOutputBytes. -/
theorem output_cap_zero_cex :
    ¬ ((outcomeStdout (executeCommand [] [] "/"
          { command := "cat big", maxOutput := some 0 }
          [ExecEvent.chunk .out "ab"] (.close (some 0) 1 "t")).1).length ≤ 0) := by
  decide

/-- Claim C8 amended: whenever the effective maxOutputBytes is nonzero,
the result's stdout is the last maxOutputBytes characters of the
accumulated stdout buffer, the result's stderr is likewise truncated
except when timedOut is true (the timeout diagnostic must survive), and
consequently the stdout length is at most maxOutputBytes; with
maxOutput 0 the code skips truncation entirely. -/
theorem exec_output_truncation
    (aliases : List (String × String)) (history : List HistoryEntry)
    (processCwd : String) (args : ExecArgs) (evts : List ExecEvent)
    (code : Option Int) (dur : Nat) (ts : String)
    (hm : args.maxOutput.getD maxOutputC ≠ 0) :
    ∃ r, (executeCommand aliases history processCwd args evts (.close code dur ts)).1
        = .completed r
      ∧ r.stdout = strTakeRight (runEvents (args.maxOutput.getD maxOutputC)
          (args.timeout.getD defaultTimeoutC) evts).stdout (args.maxOutput.getD maxOutputC)
      ∧ r.stderr = (if r.timedOut then (runEvents (args.maxOutput.getD maxOutputC)
            (args.timeout.getD defaultTimeoutC) evts).stderr
          else strTakeRight (runEvents (args.maxOutput.getD maxOutputC)
            (args.timeout.getD defaultTimeoutC) evts).stderr (args.maxOutput.getD maxOutputC))
      ∧ r.stdout.length ≤ args.maxOutput.getD maxOutputC := by
  refine ⟨_, rfl, ?_, ?_, ?_⟩
  · simp [jsSliceNegStr, hm]
  · simp [jsSliceNegStr, hm]
  · show (jsSliceNegStr _ _).length ≤ _
    rw [jsSliceNegStr, if_neg hm]
    exact strTakeRight_length_le _ _

def c8Args : ExecArgs := { command := "echo hi" }

def c8Evts : List ExecEvent := [ExecEvent.chunk .out "hi"]

theorem exec_output_truncation_witness :
    (c8Args.maxOutput.getD maxOutputC ≠ 0)
    ∧ ∃ r, (executeCommand [] [] "/" c8Args c8Evts (.close (some 0) 2 "ts")).1
        = .completed r
      ∧ r.stdout = strTakeRight (runEvents (c8Args.maxOutput.getD maxOutputC)
          (c8Args.timeout.getD defaultTimeoutC) c8Evts).stdout (c8Args.maxOutput.getD maxOutputC)
      ∧ r.stderr = (if r.timedOut then (runEvents (c8Args.maxOutput.getD maxOutputC)
            (c8Args.timeout.getD defaultTimeoutC) c8Evts).stderr
          else strTakeRight (runEvents (c8Args.maxOutput.getD maxOutputC)
            (c8Args.timeout.getD defaultTimeoutC) c8Evts).stderr (c8Args.maxOutput.getD maxOutputC))
      ∧ r.stdout.length ≤ c8Args.maxOutput.getD maxOutputC :=
  ⟨by decide,
   exec_output_truncation [] [] "/" c8Args c8Evts (some 0) 2 "ts" (by decide)⟩

/-- Claim C4: every response emitted by the dispatcher carries the
request's id verbatim; when a completed body fails to parse, the reader
emits one parse-error response with an explicit null id, resets to the
initial framer state (header mode, empty buffer, zero expected length),
and processes the remaining lines of the stream exactly like a fresh
framer with the unchanged server state (the reader does not crash). -/
theorem dispatcher_id_echo_and_parse_error_recovery :
    (∀ (oracle : ExecOracle) (st : ServerSt) (msg : Msg) (r : Response),
        r ∈ (handleMessage oracle st msg).1 → r.id = msg.id)
    ∧ (∀ (parseMsg : String → Option Msg) (oracle : ExecOracle) (sst : ServerSt)
        (fs : FramerSt) (line : String) (rest : List String),
        fs.readingBody = true →
        fs.contentLength ≤ (fs.buffer ++ line ++ "\n").length →
        parseMsg (fs.buffer ++ line ++ "\n") = none →
        runLines parseMsg oracle (line :: rest) fs sst =
          ((runLines parseMsg oracle rest framerInit sst).1,
           (runLines parseMsg oracle rest framerInit sst).2.1,
           { id := some Json.null, body := .errorResp (-32700) "Parse error" }
             :: (runLines parseMsg oracle rest framerInit sst).2.2)) := by
  constructor
  · intro oracle st msg r hr
    rcases msg with ⟨mid, method, params⟩
    simp only [handleMessage] at hr
    split at hr <;> try simp_all
    all_goals try (split at hr <;> try simp_all)
    all_goals try (split at hr <;> try simp_all)
    all_goals try (split at hr <;> try simp_all)
  · intro parseMsg oracle sst fs line rest h1 h2 h3
    have h2' : fs.contentLength ≤ fs.buffer.length + line.length + "\n".length := by
      simpa using h2
    simp [runLines, processLine, h1, h2', h3]

theorem dispatcher_id_echo_witness :
    ((⟨some (.str "7"), .initResult⟩ : Response)
        ∈ (handleMessage ⟨"/", [], .close (some 0) 1 "t"⟩ ⟨[], []⟩
            ⟨some (.str "7"), some "initialize", none⟩).1
      ∧ (⟨some (.str "7"), .initResult⟩ : Response).id
          = (⟨some (.str "7"), some "initialize", none⟩ : Msg).id)
    ∧ runLines (fun _ => none) ⟨"/", [], .close (some 0) 1 "t"⟩ ["ab"] ⟨"", 3, true⟩ ⟨[], []⟩
        = (framerInit, ⟨[], []⟩,
           [{ id := some Json.null, body := .errorResp (-32700) "Parse error" }]) := by
  constructor
  · refine ⟨by decide, ?_⟩
    exact (dispatcher_id_echo_and_parse_error_recovery).1
      ⟨"/", [], .close (some 0) 1 "t"⟩ ⟨[], []⟩ ⟨some (.str "7"), some "initialize", none⟩
      ⟨some (.str "7"), .initResult⟩ (by decide)
  · have h := (dispatcher_id_echo_and_parse_error_recovery).2 (fun _ => none)
      ⟨"/", [], .close (some 0) 1 "t"⟩ ⟨[], []⟩ ⟨"", 3, true⟩ "ab" [] rfl (by decide) rfl
    exact h.trans (by rfl)

/-- Claim C10: invoking the addAlias tool with the name or command
parameter absent, or present but equal to the empty string, emits an
error response with code -32602 and the message naming the required
fields, and leaves the server state (in particular the alias table)
unchanged: an empty string behaves exactly like a missing parameter. -/
theorem addAlias_missing_fields_error
    (oracle : ExecOracle) (st : ServerSt) (mid : Option Json) (args : ToolArgs)
    (h : args.name = none ∨ args.name = some ""
         ∨ args.command = none ∨ args.command = some "") :
    handleMessage oracle st ⟨mid, some "tools/call", some ⟨some "addAlias", some args⟩⟩
      = ([{ id := mid,
            body := .errorResp (-32602) "Missing required fields: name, command" }],
         st) := by
  have hfalse : (truthyOptStr args.name && truthyOptStr args.command) = false := by
    rcases h with h | h | h | h <;> simp [truthyOptStr, h]
  simp [handleMessage, hfalse]

theorem addAlias_missing_fields_error_witness :
    (({ name := some "", command := some "git pull" } : ToolArgs).name = none
      ∨ ({ name := some "", command := some "git pull" } : ToolArgs).name = some ""
      ∨ ({ name := some "", command := some "git pull" } : ToolArgs).command = none
      ∨ ({ name := some "", command := some "git pull" } : ToolArgs).command = some "")
    ∧ handleMessage ⟨"/", [], .close (some 0) 1 "t"⟩ ⟨[("x", "y")], []⟩
        ⟨some (.num 3), some "tools/call",
         some ⟨some "addAlias", some { name := some "", command := some "git pull" }⟩⟩
      = ([{ id := some (.num 3),
            body := .errorResp (-32602) "Missing required fields: name, command" }],
         ⟨[("x", "y")], []⟩) :=
  ⟨Or.inr (Or.inl rfl),
   addAlias_missing_fields_error ⟨"/", [], .close (some 0) 1 "t"⟩ ⟨[("x", "y")], []⟩
     (some (.num 3)) { name := some "", command := some "git pull" }
     (Or.inr (Or.inl rfl))⟩

end ShellMCP
